import Mathlib

/-!
Verification of the transaction-extraction core of a Telegram finance bot
(`main.py`).  The Python functions are shallowly embedded as executable Lean
definitions over `List Char` / `String`, with Python floats modelled as exact
rationals (`ℚ`) and calendar dates modelled as integer day indices.  External
collaborators (the generative-AI completion service, the JSON decoder, the
message transport) appear as explicit parameters.
-/

namespace FinanceBot

/-! ## Basic character and string utilities (Python `str` operations) -/

/-- Python whitespace characters recognised by `str.strip` and the regex
class `\s` (ASCII fragment). -/
def pyIsSpace (c : Char) : Bool :=
  c = ' ' || c = '\t' || c = '\n' || c = '\r' || c = Char.ofNat 11 || c = Char.ofNat 12

/-- ASCII lower-casing of one character (model of `str.lower` per character). -/
def asciiLower (c : Char) : Char :=
  if 'A' ≤ c && c ≤ 'Z' then Char.ofNat (c.toNat + 32) else c

/-- ASCII upper-casing of one character (used by `str.capitalize`). -/
def asciiUpper (c : Char) : Char :=
  if 'a' ≤ c && c ≤ 'z' then Char.ofNat (c.toNat - 32) else c

/-- Model of `str.lower` on a character list. -/
def lowerStr (l : List Char) : List Char := l.map asciiLower

/-- Model of `str.strip`: drop whitespace from both ends. -/
def stripChars (l : List Char) : List Char :=
  ((l.dropWhile pyIsSpace).reverse.dropWhile pyIsSpace).reverse

/-- Boolean test that `pat` is a prefix of `hay` (decides regex literal
matching at a fixed position). -/
def isPrefixL : List Char → List Char → Bool
  | [], _ => true
  | _ :: _, [] => false
  | a :: as, b :: bs => a == b && isPrefixL as bs

/-- Model of Python's substring test `pat in hay`. -/
def containsSub (pat : List Char) : List Char → Bool
  | [] => isPrefixL pat []
  | c :: t => isPrefixL pat (c :: t) || containsSub pat t

/-- Greedy `\d+` at the head of a list: the maximal leading digit run and the
remainder. -/
def spanDigits (l : List Char) : List Char × List Char :=
  l.span (fun c => c.isDigit)

/-- Numeric value of a digit run. -/
def natOfDigits (l : List Char) : Nat :=
  l.foldl (fun n c => 10 * n + (c.toNat - 48)) 0

/-- Exact decimal value `ip + fp / 10 ^ flen`, the result of a successful
Python `float()` conversion of a decimal numeral. -/
structure PyNum where
  ip : Nat
  fp : Nat
  flen : Nat
deriving DecidableEq, Repr

/-- Rational value denoted by a `PyNum` (Python floats are modelled as exact
rationals). -/
def pyNumVal (p : PyNum) : ℚ :=
  (p.ip : ℚ) + (p.fp : ℚ) / ((10 : ℚ) ^ p.flen)

/-- Model of Python `float()` on the strings produced by the amount regexes:
an optional integer part, an optional single decimal point and fraction, at
least one digit overall, no other characters.  `none` models `ValueError`. -/
def pyFloat (l : List Char) : Option PyNum :=
  let p := spanDigits l
  match p.2 with
  | [] => if p.1 = [] then none else some ⟨natOfDigits p.1, 0, 0⟩
  | c :: fr =>
    if c = '.' then
      let q := spanDigits fr
      if q.2 = [] && (p.1 ≠ [] || q.1 ≠ []) then
        some ⟨natOfDigits p.1, natOfDigits q.1, q.1.length⟩
      else none
    else none

/-! ## Amount Normalizer: `parse_indonesian_amount` (main.py lines 226-267) -/

/-- Whitespace skip for the regex fragment `\s*`. -/
def dropSpaces (l : List Char) : List Char := l.dropWhile pyIsSpace

/-- Decides whether one of the literal suffix alternatives follows (after
`\s*`) at the current position. -/
def suffixHere (sufs : List (List Char)) (r : List Char) : Bool :=
  sufs.any (fun s => isPrefixL s (dropSpaces r))

/-- Match of `(\d+(?:[.,]\d+)?)\s*(?:suf₁|suf₂|…)` anchored at the head of
`l`, returning the captured numeric group.  Mirrors the backtracking of the
Python regex: the optional decimal part is tried greedily first. -/
def matchSuffixNumAt (sufs : List (List Char)) (l : List Char) : Option (List Char) :=
  let p := spanDigits l
  if p.1 = [] then none
  else
    let withDec : Option (List Char) :=
      match p.2 with
      | c :: r2 =>
        if c = '.' || c = ',' then
          let q := spanDigits r2
          if q.1 ≠ [] && suffixHere sufs q.2 then some (p.1 ++ c :: q.1) else none
        else none
      | [] => none
    match withDec with
    | some g => some g
    | none => if suffixHere sufs p.2 then some p.1 else none

/-- Leftmost search (Python `re.search`) for the suffixed-number pattern. -/
def searchSuffixNum (sufs : List (List Char)) : List Char → Option (List Char)
  | [] => none
  | c :: t =>
    match matchSuffixNumAt sufs (c :: t) with
    | some g => some g
    | none => searchSuffixNum sufs t

/-- Greedy `(?:[.,]\d{3})+` fragment: consumes as many separator-plus-three-
digit groups as possible, returning the consumed characters and remainder. -/
def grpGreedy : List Char → List Char × List Char
  | s :: a :: b :: c :: r =>
    if (s = '.' || s = ',') && a.isDigit && b.isDigit && c.isDigit then
      let q := grpGreedy r
      (s :: a :: b :: c :: q.1, q.2)
    else ([], s :: a :: b :: c :: r)
  | l => ([], l)

/-- Try `\d{1,3}` of width exactly `k` at the head followed by at least one
grouped triple (backtracking step of `(\d{1,3}(?:[.,]\d{3})+)`). -/
def tryGroupWidth (l : List Char) (k : Nat) : Option (List Char) :=
  if 0 < k && k ≤ (spanDigits l).1.length then
    let g := grpGreedy (l.drop k)
    if g.1 ≠ [] then some (l.take k ++ g.1) else none
  else none

/-- Anchored match of the grouped-thousands pattern `(\d{1,3}(?:[.,]\d{3})+)`,
trying widths 3, 2, 1 as the greedy regex does. -/
def matchGroupedAt (l : List Char) : Option (List Char) :=
  match tryGroupWidth l 3 with
  | some g => some g
  | none =>
    match tryGroupWidth l 2 with
    | some g => some g
    | none => tryGroupWidth l 1

/-- Leftmost search for the grouped-thousands pattern. -/
def searchGrouped : List Char → Option (List Char)
  | [] => none
  | c :: t =>
    match matchGroupedAt (c :: t) with
    | some g => some g
    | none => searchGrouped t

/-- Leftmost search for a bare integer `(\d+)`. -/
def searchBare (l : List Char) : Option (List Char) :=
  let r := l.dropWhile (fun c => !c.isDigit)
  let d := (spanDigits r).1
  if d = [] then none else some d

/-- Decimal-separator normalization of the captured numeric string
(main.py lines 251-259): several dots or several commas are stripped as
thousands separators, a single one becomes a decimal point. -/
def normalizeNumStr (s : List Char) : List Char :=
  if s.count '.' > 1 then s.filter (fun c => c ≠ '.')
  else if s.count ',' > 1 then s.filter (fun c => c ≠ ',')
  else if s.contains '.' || s.contains ',' then
    s.map (fun c => if c = ',' then '.' else c)
  else s

/-- One priority step of `parse_indonesian_amount`: if the pattern matched,
convert (a `float()` failure falls through to the next pattern). -/
def tryPat (g? : Option (List Char)) (mult : Nat) (next : Option (PyNum × Nat)) :
    Option (PyNum × Nat) :=
  match g? with
  | none => next
  | some g =>
    match pyFloat (normalizeNumStr g) with
    | some p => some (p, mult)
    | none => next

/-- Suffix alternatives of the million pattern `(?:juta|jt)`. -/
def jtSufs : List (List Char) := ["juta".data, "jt".data]

/-- Suffix alternatives of the thousand pattern `(?:ribu|rb|k)`. -/
def rbSufs : List (List Char) := ["ribu".data, "rb".data, "k".data]

/-- Pattern-priority core of `parse_indonesian_amount`: try the four patterns
in order on the lowercased, stripped text; the first match whose captured
group also converts with `float()` wins, yielding the converted decimal and
its multiplier. -/
def parseAmountCore (t : List Char) : Option (PyNum × Nat) :=
  tryPat (searchSuffixNum jtSufs t) 1000000
    (tryPat (searchSuffixNum rbSufs t) 1000
      (tryPat (searchGrouped t) 1
        (tryPat (searchBare t) 1 none)))

/-- Embedding of `parse_indonesian_amount` (main.py lines 226-267). -/
def parse_indonesian_amount (text : String) : Option ℚ :=
  (parseAmountCore (stripChars (lowerStr text.data))).map (fun x => pyNumVal x.1 * (x.2 : ℚ))

/-! ## Local Fallback Parser: `parse_transaction_locally` (main.py lines 269-357) -/

/-- Transaction polarity. -/
inductive TType where
  | income
  | expense
deriving DecidableEq, Repr

/-- Transaction record as produced by the parsers.  Every field is optional,
mirroring the Python dict whose values may be `None` (dates are modelled as
integer day indices relative to an arbitrary epoch; the formatted
`"%Y-%m-%d"` string is abstracted). -/
structure TxData where
  amount : Option ℚ
  description : Option String
  transaction_type : Option TType
  category : Option String
  date : Option Int
deriving DecidableEq, Repr

/-- Income cue words of `parse_transaction_locally` (main.py lines 284-289). -/
def income_keywords : List String :=
  ["terima", "dapat", "pemasukan", "masuk", "diterima",
   "gaji", "bonus", "komisi", "dividen", "bunga", "hadiah",
   "warisan", "penjualan", "refund", "kembalian", "cashback",
   "dibayar oleh", "transfer dari", "kiriman dari", "diberi", "dikasih"]

/-- Expense cue words of `parse_transaction_locally` (main.py lines 291-296). -/
def expense_keywords : List String :=
  ["beli", "bayar", "belanja", "pengeluaran", "keluar", "dibayar",
   "membeli", "memesan", "berlangganan", "sewa", "booking",
   "makanan", "transportasi", "bensin", "pulsa", "tagihan", "biaya", "iuran",
   "transfer ke", "kirim ke", "buat", "untuk"]

/-- Category keyword table of `parse_transaction_locally` (main.py
lines 308-319), in declaration order. -/
def category_map : List (String × List String) :=
  [("makanan", ["makan", "food", "resto", "warung", "cafe", "kopi", "snack", "jajan"]),
   ("transportasi", ["bensin", "parkir", "tol", "ojek", "grab", "gojek", "taxi", "bus", "kereta"]),
   ("belanja", ["belanja", "beli", "shopping", "toko", "mart", "alfamart", "indomaret"]),
   ("tagihan", ["tagihan", "listrik", "air", "pdam", "internet", "wifi", "pulsa", "paket data"]),
   ("kesehatan", ["obat", "dokter", "rumah sakit", "klinik", "apotek", "vitamin"]),
   ("hiburan", ["film", "bioskop", "game", "streaming", "netflix", "spotify"]),
   ("pendidikan", ["buku", "kursus", "les", "sekolah", "kuliah", "spp"]),
   ("iuran", ["iuran", "arisan", "sumbangan", "donasi", "zakat", "infaq"]),
   ("gaji", ["gaji", "salary", "upah"]),
   ("bonus", ["bonus", "thr", "insentif"])]

/-- Model of `str.capitalize` for the all-lowercase category names. -/
def capitalizeStr (s : String) : String :=
  match s.data with
  | [] => ""
  | c :: t => String.mk (asciiUpper c :: t)

/-- First matching category of the table, default "Lainnya" (main.py
lines 321-325). -/
def pickCategory (tl : List Char) : List (String × List String) → String
  | [] => "Lainnya"
  | (cat, kws) :: rest =>
    if kws.any (fun k => containsSub k.data tl) then capitalizeStr cat
    else pickCategory tl rest

/-- Date resolver of the local parser (main.py lines 327-332): yesterday and
tomorrow keywords, otherwise today. -/
def localDate (tl : List Char) (today : Int) : Int :=
  if containsSub "kemarin".data tl || containsSub "yesterday".data tl then today - 1
  else if containsSub "besok".data tl || containsSub "tomorrow".data tl then today + 1
  else today

/-- Case-insensitive prefix test used by the `re.IGNORECASE` substitutions. -/
def isPrefixIC (pat hay : List Char) : Bool :=
  isPrefixL pat (lowerStr (hay.take pat.length))

/-- Drop an optional magnitude suffix `(?:juta|jt|ribu|rb|k)?`
case-insensitively, alternatives in regex order. -/
def dropMagSuffix (l : List Char) : List Char :=
  if isPrefixIC "juta".data l then l.drop 4
  else if isPrefixIC "jt".data l then l.drop 2
  else if isPrefixIC "ribu".data l then l.drop 4
  else if isPrefixIC "rb".data l then l.drop 2
  else if isPrefixIC "k".data l then l.drop 1
  else l

/-- Fuelled scanner for
`re.sub(r'\d+(?:[.,]\d+)?\s*(?:juta|jt|ribu|rb|k)?', '', text)` (main.py
line 339): every amount-shaped substring is removed globally. -/
def subAmountGo : Nat → List Char → List Char
  | 0, l => l
  | _ + 1, [] => []
  | f + 1, c :: t =>
    if c.isDigit then
      let p := spanDigits (c :: t)
      let r2 :=
        match p.2 with
        | s :: rr =>
          if (s = '.' || s = ',') && ((spanDigits rr).1 ≠ []) then (spanDigits rr).2
          else p.2
        | [] => p.2
      subAmountGo f (dropMagSuffix (dropSpaces r2))
    else c :: subAmountGo f t

/-- Global removal of amount substrings (wrapper supplying fuel). -/
def subAmount (l : List Char) : List Char := subAmountGo (l.length + 1) l

/-- Fuelled scanner for `re.sub(r'rp\.?\s*', '', ...)` (main.py line 340):
removes currency markers case-insensitively. -/
def subRpGo : Nat → List Char → List Char
  | 0, l => l
  | _ + 1, [] => []
  | f + 1, c :: t =>
    if asciiLower c = 'r' then
      match t with
      | c2 :: t2 =>
        if asciiLower c2 = 'p' then
          let r :=
            match t2 with
            | '.' :: t3 => t3
            | _ => t2
          subRpGo f (dropSpaces r)
        else c :: subRpGo f t
      | [] => [c]
    else c :: subRpGo f t

/-- Global removal of `rp` currency markers (wrapper supplying fuel). -/
def subRp (l : List Char) : List Char := subRpGo (l.length + 1) l

/-- Python truthiness of the parsed amount (`if amount and ...`): present and
nonzero. -/
def amtTruthy (a : Option ℚ) : Bool :=
  match a with
  | some q => decide (q ≠ 0)
  | none => false

/-- Description extraction of the local parser (main.py lines 334-343 and
line 353): when a (truthy) amount was found, strip amount substrings and
currency markers; fall back to the full original text when stripping empties
the string. -/
def localDescription (text : String) (truthy : Bool) : String :=
  let d1 :=
    if truthy then
      let d := stripChars (subRp (subAmount text.data))
      if d = [] then text.data else d
    else text.data
  if d1 ≠ [] then String.mk (stripChars d1) else text

/-- Embedding of `parse_transaction_locally` (main.py lines 269-357):
keyword-based type and category classification, rule-based date, amount via
`parse_indonesian_amount`, sign applied last.  Total by construction: the
Python function can raise on no input. -/
def parse_transaction_locally (text : String) (today : Int) : TxData :=
  let tl := lowerStr text.data
  let amount := parse_indonesian_amount text
  let is_income := income_keywords.any (fun kw => containsSub kw.data tl)
  let is_expense := expense_keywords.any (fun kw => containsSub kw.data tl)
  let ttype : TType := if is_income && !is_expense then .income else .expense
  let category := pickCategory tl category_map
  let date := localDate tl today
  let description := localDescription text (amtTruthy amount)
  let signedAmount : Option ℚ :=
    amount.map (fun q =>
      if q ≠ 0 then (if ttype = .expense then -|q| else |q|) else q)
  { amount := signedAmount
    description := some description
    transaction_type := some ttype
    category := some category
    date := some date }

/-! ## AI Transaction Extractor: `parse_financial_data` (main.py lines 1409-1598) -/

/-- Split a character list at the first occurrence of `sep`, returning the
parts before and after it (model of one step of Python `str.split(sep)`). -/
def splitFirst (sep : List Char) : List Char → Option (List Char × List Char)
  | [] => if isPrefixL sep [] then some ([], []) else none
  | c :: t =>
    if isPrefixL sep (c :: t) then some ([], (c :: t).drop sep.length)
    else
      match splitFirst sep t with
      | some (b, a) => some (c :: b, a)
      | none => none

/-- Prefix of `l` up to (excluding) the first occurrence of `sep`, or all of
`l` (model of `str.split(sep)[0]`). -/
def upToSub (sep l : List Char) : List Char :=
  match splitFirst sep l with
  | some (b, _) => b
  | none => l

/-- Fenced-code-block JSON extraction of `parse_financial_data` (main.py
lines 1501-1507): take the text between optional triple-backtick fences,
preferring a `json`-tagged fence, and strip it. -/
def extractJsonBlock (rt : List Char) : List Char :=
  match splitFirst "```json".data rt with
  | some (_, after) => stripChars (upToSub "```".data (upToSub "```json".data after))
  | none =>
    match splitFirst "```".data rt with
    | some (_, after) => stripChars (upToSub "```".data after)
    | none => stripChars rt

/-- JSON value received for the `amount` field: either a value `float()` can
coerce, or one on which the coercion raises (propagating to the outer
exception handler). -/
inductive AiNum where
  | good (q : ℚ)
  | bad
deriving DecidableEq, Repr

/-- Untrusted record decoded from the AI response JSON.  String-falsy values
(`null` or missing) are `none`; dates are integer day indices. -/
structure AiRaw where
  amount : Option AiNum
  category : Option String
  description : Option String
  transaction_type : Option TType
  date : Option Int
  time_context : Option String
deriving DecidableEq, Repr

/-- Day-name table of the weekday resolver (main.py lines 1532-1540), in
declaration order. -/
def day_names : List (String × Nat) :=
  [("senin", 0), ("monday", 0), ("selasa", 1), ("tuesday", 1),
   ("rabu", 2), ("wednesday", 2), ("kamis", 3), ("thursday", 3),
   ("jumat", 4), ("friday", 4), ("sabtu", 5), ("saturday", 5),
   ("minggu", 6), ("sunday", 6)]

/-- First day name of the table occurring in the (lowercased) time context. -/
def findFirstDay (tc : List Char) : List (String × Nat) → Option Nat
  | [] => none
  | (nm, d) :: rest =>
    if containsSub nm.data tc then some d else findFirstDay tc rest

/-- First digit run in the time context as a number (model of
`int(re.search(r'(\d+)', time_context).group(1))`); `none` models the
`AttributeError` swallowed by the bare `except`. -/
def firstNatIn (tc : List Char) : Option Nat :=
  match searchBare tc with
  | some d => some (natOfDigits d)
  | none => none

/-- Relative-date chain of the local time-context resolver (main.py
lines 1516-1529), before the weekday loop. -/
def relDateChain (tc : List Char) (today : Int) : Option Int :=
  if containsSub "kemarin".data tc || containsSub "yesterday".data tc then some (today - 1)
  else if containsSub "besok".data tc || containsSub "tomorrow".data tc then some (today + 1)
  else if containsSub "lusa".data tc || containsSub "day after tomorrow".data tc then
    some (today + 2)
  else if containsSub "hari yang lalu".data tc || containsSub "days ago".data tc then
    match firstNatIn tc with
    | some n => some (today - n)
    | none => none
  else if containsSub "minggu lalu".data tc || containsSub "last week".data tc then
    some (today - 7)
  else none

/-- Weekday loop of the local time-context resolver (main.py
lines 1542-1557): for the first day name found, compute the backward offset
(forced to 7 under a `lalu`/`last` qualifier when it is 0), or the forward
offset under a `depan`/`next` qualifier.  The result overwrites any date the
relative-date chain produced. -/
def weekdayResolve (tc : List Char) (today : Int) (todayW : Nat) : Option Int :=
  match findFirstDay tc day_names with
  | none => none
  | some dayNum =>
    let dd0 : Int := ((todayW : Int) - (dayNum : Int)) % 7
    let dd : Int :=
      if dd0 = 0 && (containsSub "lalu".data tc || containsSub "last".data tc) then 7 else dd0
    if containsSub "depan".data tc || containsSub "next".data tc then
      let fd0 : Int := ((dayNum : Int) - (todayW : Int)) % 7
      let fd : Int := if fd0 = 0 then 7 else fd0
      some (today + fd)
    else some (today - dd)

/-- Local time-context resolver of `parse_financial_data` (main.py
lines 1512-1557), applied when the AI returned a `time_context` but no date.
`tc` is the lowercased time context, `today` the reference day index,
`todayW` its weekday (0 = Monday). -/
def resolveTimeContext (tc : List Char) (today : Int) (todayW : Nat) : Option Int :=
  match weekdayResolve tc today todayW with
  | some d => some d
  | none => relDateChain tc today

/-- Post-processing of a successfully decoded AI record (main.py
lines 1511-1582): resolve a missing date from the time context (defaulting
to today), normalize the amount sign, reconcile a missing amount or
description from the local fallback result.  `none` models an exception
raised while processing (for instance `float()` on a malformed amount),
which the outer handler turns into the local fallback result. -/
def processAiData (raw : AiRaw) (local_result : TxData)
    (today : Int) (todayW : Nat) : Option TxData :=
  let date1 : Option Int :=
    match raw.date with
    | some d => some d
    | none =>
      match raw.time_context with
      | some tc => resolveTimeContext (lowerStr tc.data) today todayW
      | none => none
  let date2 : Int := date1.getD today
  let description : Option String :=
    match raw.description with
    | some d => if d = "" then local_result.description else some d
    | none => local_result.description
  match raw.amount with
  | some .bad => none
  | some (.good q) =>
    let a : ℚ := if raw.transaction_type = some .expense then -|q| else |q|
    some { amount := some a
           description := description
           transaction_type := raw.transaction_type
           category := raw.category
           date := some date2 }
  | none =>
    if amtTruthy local_result.amount then
      some { amount := local_result.amount
             description := description
             transaction_type :=
               match raw.transaction_type with
               | some t => some t
               | none => local_result.transaction_type
             category := raw.category
             date := some date2 }
    else
      some { amount := none
             description := description
             transaction_type := raw.transaction_type
             category := raw.category
             date := some date2 }

/-- Embedding of `parse_financial_data` (main.py lines 1409-1598).  The
completion-service call (through the retry wrapper) is the `ai` parameter:
`Except.error` models the exception re-raised after exhausted retries;
`decode` models `json.loads`, returning `none` on malformed JSON.  Every
failure path returns the local fallback result; the function is total, so no
exception reaches the caller. -/
def parse_financial_data (text : String) (today : Int) (todayW : Nat)
    (ai : Except Unit String) (decode : List Char → Option AiRaw) : TxData :=
  let local_result := parse_transaction_locally text today
  match ai with
  | .error _ => local_result
  | .ok rtext =>
    match decode (extractJsonBlock rtext.data) with
    | none => local_result
    | some raw =>
      match processAiData raw local_result today todayW with
      | none => local_result
      | some d => d

/-! ## Multi-line Splitter: `parse_multiple_transactions` (main.py lines 1654-1684) -/

/-- Model of `str.split('\n')`. -/
def splitNl : List Char → List (List Char)
  | [] => [[]]
  | c :: t =>
    if c = '\n' then [] :: splitNl t
    else
      match splitNl t with
      | h :: r => (c :: h) :: r
      | [] => [[c]]

/-- Stripped non-blank lines of a message (main.py line 1657). -/
def nonBlankLines (text : String) : List (List Char) :=
  ((splitNl text.data).map stripChars).filter (fun l => l ≠ [])

/-- Per-line collection loop of `parse_multiple_transactions` (main.py
lines 1664-1681): a line whose extraction raises (`Except.error`) is skipped,
a line whose extraction yields no amount is excluded, every other line's
record is kept in order. -/
def collectLines (runLine : String → Except Unit TxData) : List (List Char) → List TxData
  | [] => []
  | l :: ls =>
    match runLine (String.mk l) with
    | .error _ => collectLines runLine ls
    | .ok d =>
      if d.amount.isSome then d :: collectLines runLine ls
      else collectLines runLine ls

/-- Embedding of `parse_multiple_transactions` (main.py lines 1654-1684).
The per-line call `await parse_financial_data(line)` is the `runLine`
parameter (instantiate with `parse_financial_data` and an AI outcome). -/
def parse_multiple_transactions (text : String)
    (runLine : String → Except Unit TxData) : List TxData :=
  collectLines runLine (nonBlankLines text)

/-! ## Category Summarizer: `generate_category_summary` (main.py lines 1225-1304) -/

/-- Input item of the summarizer: `{category, amount, description}`. -/
structure TxItem where
  category : String
  amount : ℚ
  description : String
deriving DecidableEq, Repr

/-- Per-category accumulator: running total and insertion-ordered item list
(`category_totals` / `category_items`, main.py lines 1234-1252). -/
structure CatAcc where
  name : String
  total : ℚ
  items : List (String × ℚ)
deriving DecidableEq, Repr

/-- Fold step of the grouping loop: absolute amount added to the category's
total and appended to its item list; a new category is appended at the end
(Python dict insertion order). -/
def upsertTx (acc : List CatAcc) (t : TxItem) : List CatAcc :=
  match acc with
  | [] => [⟨t.category, |t.amount|, [(t.description, |t.amount|)]⟩]
  | c :: rest =>
    if c.name = t.category then
      ⟨c.name, c.total + |t.amount|, c.items ++ [(t.description, |t.amount|)]⟩ :: rest
    else c :: upsertTx rest t

/-- Grouping loop of the summarizer (main.py lines 1237-1252). -/
def groupCats (txs : List TxItem) : List CatAcc := txs.foldl upsertTx []

/-- Fuelled model of Python `str.replace(pat, repl)`: non-overlapping,
left-to-right, all occurrences. -/
def replaceAllGo : Nat → List Char → List Char → List Char → List Char
  | 0, _, _, l => l
  | _ + 1, _, _, [] => []
  | f + 1, pat, repl, c :: t =>
    if pat ≠ [] && isPrefixL pat (c :: t) then
      repl ++ replaceAllGo f pat repl ((c :: t).drop pat.length)
    else c :: replaceAllGo f pat repl t

/-- Model of `str.replace` (wrapper supplying fuel). -/
def replaceAll (pat repl l : List Char) : List Char :=
  replaceAllGo (l.length + 1) pat repl l

/-- Item-description cleanup of the summarizer (main.py lines 1275-1286):
drop a trailing location clause, strip a repeated category name, drop a
leading shopping prefix, truncate to 30 characters. -/
def cleanDesc (category : String) (desc : String) : String :=
  let d1 : List Char :=
    if containsSub " di ".data desc.data then upToSub " di ".data desc.data else desc.data
  let d2 : List Char :=
    if containsSub (lowerStr category.data) (lowerStr d1) then
      stripChars (replaceAll category.data [] d1)
    else d1
  let d3 : List Char :=
    if isPrefixL "Belanja ".data d2 then replaceAll "Belanja ".data [] d2 else d2
  if d3.length > 30 then String.mk (d3.take 27 ++ "...".data) else String.mk d3

/-- Rendered block for one category: cleaned displayed items (capped at 10),
count of collapsed items, and the subtotal. -/
structure CatBlock where
  name : String
  shown : List (String × ℚ)
  more : Nat
  subtotal : ℚ
deriving DecidableEq, Repr

/-- Descending-by-total order on category accumulators
(`sorted(..., key=lambda x: x[1], reverse=True)`, main.py line 1258). -/
def catGE (a b : CatAcc) : Prop := b.total ≤ a.total

instance : DecidableRel catGE := fun a b => inferInstanceAs (Decidable (b.total ≤ a.total))

instance : IsTotal CatAcc catGE := ⟨fun a b => (le_total a.total b.total).symm⟩

instance : IsTrans CatAcc catGE := ⟨fun _ _ _ h1 h2 => le_trans h2 h1⟩

/-- Descending-by-amount order on items (main.py line 1272). -/
def itemGE (a b : String × ℚ) : Prop := b.2 ≤ a.2

instance : DecidableRel itemGE := fun a b => inferInstanceAs (Decidable (b.2 ≤ a.2))

instance : IsTotal (String × ℚ) itemGE := ⟨fun a b => (le_total a.2 b.2).symm⟩

instance : IsTrans (String × ℚ) itemGE := ⟨fun _ _ _ h1 h2 => le_trans h2 h1⟩

/-- Embedding of `generate_category_summary` (main.py lines 1225-1304),
returning the structured content of the rendered message: the category
blocks in display order and the grand total.  Python's stable `sorted` is
modelled by `List.insertionSort`. -/
def generate_category_summary (txs : List TxItem) : List CatBlock × ℚ :=
  if txs = [] then ([], 0)
  else
    let sortedCats := List.insertionSort catGE (groupCats txs)
    let blocks := sortedCats.map (fun c =>
      { name := c.name
        shown := ((List.insertionSort itemGE c.items).take 10).map
          (fun it => (cleanDesc c.name it.1, it.2))
        more := if c.items.length > 10 then c.items.length - 10 else 0
        subtotal := c.total })
    (blocks, (sortedCats.map (fun c => c.total)).sum)

/-! ## Conversation state and update dispatch (main.py lines 2196-2241, 2803-3026, 3209-3262)

The per-user `context.user_data` dict is modelled by its key set: the claims
under study are about which keys survive a transition.  Only text updates
are modelled (photo and callback updates are distinct update kinds). -/

/-- Key set of `context.user_data` for one user. -/
abbrev UserData := List String

/-- Model of `user_data.pop(k, None)`. -/
def removeKey (ud : UserData) (k : String) : UserData := ud.filter (fun x => x ≠ k)

/-- Pop a list of keys in order. -/
def popKeys (ud : UserData) (ks : List String) : UserData := ks.foldl removeKey ud

/-- Model of `user_data[k] = v` on the key set. -/
def addKey (ud : UserData) (k : String) : UserData :=
  if ud.contains k then ud else ud ++ [k]

/-- Commands with a registered `CommandHandler` (main.py lines 3220-3227 and
3262). -/
inductive BotCmd where
  | start
  | catat
  | laporan
  | help
  | menu
  | sheet
  | hapus
  | hapuspesan
  | me
deriving DecidableEq, Repr

/-- Registered command table of `main` (main.py lines 3220-3227, 3262). -/
def registered_commands : List (String × BotCmd) :=
  [("start", .start), ("catat", .catat), ("laporan", .laporan), ("help", .help),
   ("menu", .menu), ("sheet", .sheet), ("hapus", .hapus), ("hapuspesan", .hapuspesan),
   ("me", .me)]

/-- Whether a text message is a command (leading slash; the transport marks
these as bot-command messages, matched by `filters.COMMAND`). -/
def isCommandText (text : String) : Bool :=
  match text.data with
  | '/' :: _ => true
  | _ => false

/-- Command word of a slash message (up to the first space). -/
def cmdWord (text : String) : String :=
  String.mk ((text.data.drop 1).takeWhile (fun c => c ≠ ' '))

/-- The registered command a text message invokes, if any. -/
def commandOf (text : String) : Option BotCmd :=
  if isCommandText text then registered_commands.lookup (cmdWord text) else none

/-- Effect of each command handler on the user-data key set: only
`/hapuspesan` (`toggle_delete_messages`, main.py lines 590-610) writes a key;
no command handler pops any key. -/
def applyCommand : BotCmd → UserData → UserData
  | .hapuspesan, ud => addKey ud "delete_messages"
  | _, ud => ud

/-- Embedding of `message_handler` (main.py lines 2196-2241) as its effect on
the user-data key set.  `onDateInput` and `onFinancial` stand for
`handle_date_input` and the financial-message processing the handler
delegates to. -/
def message_handler (text : String) (ud : UserData)
    (onDateInput onFinancial : String → UserData → UserData) : UserData :=
  if ud.contains "delete_state" then
    if isCommandText text then popKeys ud ["delete_state", "start_date", "records_to_delete"]
    else onDateInput text ud
  else onFinancial text ud

/-- Reply-keyboard button texts matched before the general message handler
(main.py line 3246). -/
def keyboard_texts : List String := ["📝 Catat", "📊 Laporan", "📋 Sheet", "🗑️ Hapus"]

/-- Dispatch of one text update through the handlers registered in `main`
(main.py lines 3219-3262), in registration order: a command message is
handled by its `CommandHandler` (or by nobody when unregistered — the
message handlers exclude commands via `~filters.COMMAND`); a keyboard button
routes to the same command handlers; everything else reaches
`message_handler`. -/
def dispatchText (text : String) (ud : UserData)
    (onDateInput onFinancial : String → UserData → UserData) : UserData :=
  match commandOf text with
  | some c => applyCommand c ud
  | none =>
    if isCommandText text then ud
    else if keyboard_texts.contains text then ud
    else message_handler text ud onDateInput onFinancial

/-- Context keys a user in the waiting-for-amount state holds (set by
`process_financial_message` and the `type_` branch of `button_callback`,
main.py lines 2744-2748 and 2822-2825). -/
def waiting_amount_keys : List String :=
  ["pending_message", "detected_date", "pending_category", "transaction_type",
   "description", "date", "conversation_state"]

/-- Key bundle cleared by the `yes` and `cancel` branches of
`button_callback` (main.py lines 2973 and 3005-3016). -/
def context_bundle_keys : List String :=
  ["pending_transaction", "pending_message", "transaction_type", "amount", "description",
   "detected_date", "pending_receipt", "conversation_state", "pending_category", "date"]

/-- Key bundle cleared by the no/edit branch when no pending message is left
(main.py line 2996). -/
def edit_clear_keys : List String :=
  ["pending_receipt", "transaction_type", "amount", "description", "detected_date",
   "conversation_state", "pending_category", "date"]

/-- Actions of the `confirm_` branch of `button_callback`. -/
inductive ConfirmAction where
  | yes
  | no
  | edit
  | cancel
  | other
deriving DecidableEq, Repr

/-- Embedding of the `confirm_` branch of `button_callback` (main.py
lines 2843-3026) as its effect on the user-data key set.  `sheetAvailable`
models the `sheet and USE_GOOGLE_SHEETS` guard: when the store is
unavailable, the `yes` branch returns before clearing anything. -/
def button_callback_confirm (action : ConfirmAction) (sheetAvailable : Bool)
    (ud : UserData) : UserData :=
  match action with
  | .yes => if !sheetAvailable then ud else popKeys ud context_bundle_keys
  | .no | .edit =>
    let ud1 := popKeys ud ["pending_transaction", "conversation_state"]
    if ud1.contains "pending_message" then ud1 else popKeys ud1 edit_clear_keys
  | .cancel => popKeys ud context_bundle_keys
  | .other => ud

/-! ## Delete-all operation: `confirm_delete_callback` (main.py lines 1089-1108) -/

/-- Row of the record store (positional columns; the `User ID` column is the
one the delete-all scan compares). -/
structure SheetRow where
  date : String
  amount : String
  category : String
  description : String
  userId : String
  timestamp : String
deriving DecidableEq, Repr

/-- Scan of `all_values[1:]` with `enumerate(..., start=2)` collecting the
sheet indices of the requesting user's rows, in ascending order (main.py
lines 1095-1099). -/
def matchIdx (uid : String) : List SheetRow → Nat → List Nat
  | [], _ => []
  | r :: rest, k =>
    if r.userId = uid then k :: matchIdx uid rest (k + 1)
    else matchIdx uid rest (k + 1)

/-- Model of `sheet.delete_rows(i)`: remove the row at 1-based index `i`. -/
def delete_rows (s : List SheetRow) (i : Nat) : List SheetRow := s.eraseIdx (i - 1)

/-- Descending order on sheet indices (`sorted(..., reverse=True)`,
main.py line 1102). -/
def natGE (a b : Nat) : Prop := b ≤ a

instance : DecidableRel natGE := fun a b => inferInstanceAs (Decidable (b ≤ a))

/-- Embedding of the `all` branch of `confirm_delete_callback` (main.py
lines 1089-1108): collect the requesting user's row indices, then delete
them in descending order. -/
def confirm_delete_all (header : SheetRow) (body : List SheetRow) (uid : String) :
    List SheetRow :=
  let rows_to_delete := matchIdx uid body 2
  (List.insertionSort natGE rows_to_delete).foldl delete_rows (header :: body)

/-! ## Theorems -/

example : parseAmountCore (stripChars (lowerStr "70k".data)) = some (⟨70, 0, 0⟩, 1000) := by
  decide

example : (parse_transaction_locally "Beli makan siang 50000" 0).category =
    some "Makanan" := by decide

example : (parse_transaction_locally "beli besok 5k" 7).date = some 8 := by decide

/-- C1 counterexample: the string "70k 2jt" contains the number 70 followed
by a `k` suffix, yet `parse_indonesian_amount` does not return 70 · 1000 —
the `jt` pattern is searched first over the whole string and wins with
2 · 1,000,000. -/
theorem C1_counterexample :
    parse_indonesian_amount "70k 2jt" = some 2000000 ∧
    parse_indonesian_amount "70k 2jt" ≠ some 70000 := by
  have h : parseAmountCore (stripChars (lowerStr "70k 2jt".data)) =
      some (⟨2, 0, 0⟩, 1000000) := by decide
  have he : parse_indonesian_amount "70k 2jt" = some 2000000 := by
    simp [parse_indonesian_amount, h, pyNumVal]
    norm_num
  refine ⟨he, ?_⟩
  rw [he]
  intro hc
  exact absurd (Option.some.inj hc) (by norm_num)

/-- C1 (amended): when the thousand pattern (`k`/`rb`/`ribu`) finds a match
whose captured number converts, and the million pattern (`jt`/`juta`) finds
no match, the result is that (leftmost-matched) number times 1000; whenever
the million pattern finds a converting match it wins with that number times
1,000,000 (suffix patterns are tried before the grouped and bare patterns);
in particular "70k" yields 70000 and "1.5jt" yields 1500000. -/
theorem C1_suffix_priority :
    (∀ (t : String) (g : List Char) (p : PyNum),
        searchSuffixNum jtSufs (stripChars (lowerStr t.data)) = some g →
        pyFloat (normalizeNumStr g) = some p →
        parse_indonesian_amount t = some (pyNumVal p * 1000000)) ∧
    (∀ (t : String) (g : List Char) (p : PyNum),
        searchSuffixNum jtSufs (stripChars (lowerStr t.data)) = none →
        searchSuffixNum rbSufs (stripChars (lowerStr t.data)) = some g →
        pyFloat (normalizeNumStr g) = some p →
        parse_indonesian_amount t = some (pyNumVal p * 1000)) ∧
    parse_indonesian_amount "70k" = some 70000 ∧
    parse_indonesian_amount "1.5jt" = some 1500000 := by
  refine ⟨?_, ?_, ?_, ?_⟩
  · intro t g p hjt hf
    simp [parse_indonesian_amount, parseAmountCore, tryPat, hjt, hf]
  · intro t g p hjt hrb hf
    simp [parse_indonesian_amount, parseAmountCore, tryPat, hjt, hrb, hf]
  · have h : parseAmountCore (stripChars (lowerStr "70k".data)) =
        some (⟨70, 0, 0⟩, 1000) := by decide
    simp [parse_indonesian_amount, h, pyNumVal]
    norm_num
  · have h : parseAmountCore (stripChars (lowerStr "1.5jt".data)) =
        some (⟨1, 5, 1⟩, 1000000) := by decide
    simp [parse_indonesian_amount, h, pyNumVal]
    norm_num

/-- C1 witness: the thousand-pattern clause applied to "70rb". -/
theorem C1_suffix_priority_witness :
    parse_indonesian_amount "70rb" = some (pyNumVal ⟨70, 0, 0⟩ * 1000) :=
  C1_suffix_priority.2.1 "70rb" "70".data ⟨70, 0, 0⟩ (by decide) (by decide) (by decide)

/-- Unfolding lemma: the locally parsed transaction type is the
income/expense decision on the two keyword scans. -/
theorem ttype_eq (text : String) (today : Int) :
    (parse_transaction_locally text today).transaction_type =
      some (if (income_keywords.any fun kw => containsSub kw.data (lowerStr text.data)) &&
               !(expense_keywords.any fun kw => containsSub kw.data (lowerStr text.data))
            then TType.income else TType.expense) := rfl

/-- C2: the local fallback classifier returns income exactly when some
income cue occurs in the lowercased text and no expense cue occurs; in every
other case it returns expense. -/
theorem C2_classifier :
    ∀ (text : String) (today : Int),
      ((parse_transaction_locally text today).transaction_type = some TType.income ↔
        ((∃ kw ∈ income_keywords, containsSub kw.data (lowerStr text.data) = true) ∧
          ∀ kw ∈ expense_keywords, containsSub kw.data (lowerStr text.data) = false)) ∧
      ((parse_transaction_locally text today).transaction_type = some TType.income ∨
        (parse_transaction_locally text today).transaction_type = some TType.expense) := by
  intro text today
  simp only [ttype_eq]
  cases hI : income_keywords.any fun kw => containsSub kw.data (lowerStr text.data) <;>
    cases hE : expense_keywords.any fun kw => containsSub kw.data (lowerStr text.data) <;>
      simp_all [List.any_eq_true]

/-- C2 witness: a text with an income cue and no expense cue classifies as
income. -/
theorem C2_classifier_witness :
    (parse_transaction_locally "dapat hadiah" 0).transaction_type = some TType.income :=
  (C2_classifier "dapat hadiah" 0).1.mpr ⟨⟨"dapat", by decide, by decide⟩, by decide⟩

/-- C3: the local fallback parser is total (the embedding is a Lean
function, hence never raises) and returns non-null category, description and
date for every non-empty input; an input with no recognisable amount gets a
null amount field rather than an error. -/
theorem C3_local_parser_total :
    (∀ (text : String) (today : Int), text ≠ "" →
      (parse_transaction_locally text today).category.isSome = true ∧
      (parse_transaction_locally text today).description.isSome = true ∧
      (parse_transaction_locally text today).date.isSome = true) ∧
    (parse_transaction_locally "kosong tanpa angka" 0).amount = none ∧
    (parse_transaction_locally "kosong tanpa angka" 0).category.isSome = true := by
  refine ⟨?_, by decide, by decide⟩
  intro text today _
  exact ⟨rfl, rfl, rfl⟩

/-- C3 witness at a concrete non-empty input. -/
theorem C3_local_parser_total_witness :
    (parse_transaction_locally "halo" 0).category.isSome = true ∧
    (parse_transaction_locally "halo" 0).description.isSome = true ∧
    (parse_transaction_locally "halo" 0).date.isSome = true :=
  C3_local_parser_total.1 "halo" 0 (by decide)

/-- C4: whenever the AI call fails after retries, or the response decodes to
no JSON record, or processing the decoded record raises, `parse_financial_data`
returns exactly the local fallback result for the text (and, being a total
function, raises nothing). -/
theorem C4_fallback :
    (∀ (text : String) (today : Int) (todayW : Nat) (e : Unit)
        (decode : List Char → Option AiRaw),
        parse_financial_data text today todayW (.error e) decode =
          parse_transaction_locally text today) ∧
    (∀ (text : String) (today : Int) (todayW : Nat) (rtext : String)
        (decode : List Char → Option AiRaw),
        decode (extractJsonBlock rtext.data) = none →
        parse_financial_data text today todayW (.ok rtext) decode =
          parse_transaction_locally text today) ∧
    (∀ (text : String) (today : Int) (todayW : Nat) (rtext : String)
        (decode : List Char → Option AiRaw) (raw : AiRaw),
        decode (extractJsonBlock rtext.data) = some raw →
        processAiData raw (parse_transaction_locally text today) today todayW = none →
        parse_financial_data text today todayW (.ok rtext) decode =
          parse_transaction_locally text today) := by
  refine ⟨?_, ?_, ?_⟩
  · intro text today todayW e decode
    rfl
  · intro text today todayW rtext decode h
    simp [parse_financial_data, h]
  · intro text today todayW rtext decode raw h1 h2
    simp [parse_financial_data, h1, h2]

/-- C4 witness: malformed JSON and an uncoercible amount both degrade to the
local result at a concrete input. -/
theorem C4_fallback_witness :
    parse_financial_data "beli kopi 5k" 0 0 (.ok "not json") (fun _ => none) =
      parse_transaction_locally "beli kopi 5k" 0 ∧
    parse_financial_data "beli kopi 5k" 0 0 (.ok "x")
        (fun _ => some ⟨some .bad, none, none, none, none, none⟩) =
      parse_transaction_locally "beli kopi 5k" 0 :=
  ⟨C4_fallback.2.1 "beli kopi 5k" 0 0 "not json" (fun _ => none) rfl,
   C4_fallback.2.2 "beli kopi 5k" 0 0 "x"
     (fun _ => some ⟨some .bad, none, none, none, none, none⟩)
     ⟨some .bad, none, none, none, none, none⟩ rfl rfl⟩

/-- C9: from a Monday reference, a time context that names Monday under a
`lalu`/`last` qualifier (and no `depan`/`next` qualifier) resolves to seven
days before the reference date, never the reference date itself. -/
theorem C9_last_weekday :
    ∀ (tc : List Char) (today : Int) (todayW : Nat),
      todayW = 0 →
      (containsSub "senin".data tc = true ∨ containsSub "monday".data tc = true) →
      (containsSub "lalu".data tc = true ∨ containsSub "last".data tc = true) →
      containsSub "depan".data tc = false →
      containsSub "next".data tc = false →
      resolveTimeContext tc today todayW = some (today - 7) ∧ today - 7 ≠ today := by
  intro tc today todayW h0 hday hq hd hn
  subst h0
  have hfd : findFirstDay tc day_names = some 0 := by
    rcases hday with h | h
    · simp [findFirstDay, day_names, h]
    · cases hs : containsSub "senin".data tc <;> simp [findFirstDay, day_names, hs, h]
  have hw : weekdayResolve tc today 0 = some (today - 7) := by
    rcases hq with h | h <;> simp [weekdayResolve, hfd, hd, hn, h]
  refine ⟨by simp [resolveTimeContext, hw], by omega⟩

/-- C9 witness: "senin lalu" from a Monday epoch day resolves seven days
back. -/
theorem C9_last_weekday_witness :
    resolveTimeContext "senin lalu".data 0 0 = some (0 - 7) ∧ (0 : Int) - 7 ≠ 0 :=
  C9_last_weekday "senin lalu".data 0 0 rfl (Or.inl (by decide)) (Or.inl (by decide))
    (by decide) (by decide)

/-- The collection loop returns at most one record per line. -/
theorem collectLines_length_le (runLine : String → Except Unit TxData)
    (ls : List (List Char)) :
    (collectLines runLine ls).length ≤ ls.length := by
  induction ls with
  | nil => simp [collectLines]
  | cons l ls ih =>
    simp only [collectLines]
    cases runLine (String.mk l) with
    | error e =>
      simp only [List.length_cons]
      omega
    | ok d =>
      by_cases hd : d.amount.isSome = true <;> simp only [hd, if_true, if_false,
        Bool.false_eq_true, List.length_cons] <;> omega

/-- Every record the collection loop keeps has a present amount. -/
theorem collectLines_mem (runLine : String → Except Unit TxData)
    (ls : List (List Char)) (d : TxData) :
    d ∈ collectLines runLine ls → d.amount.isSome = true := by
  induction ls with
  | nil => simp [collectLines]
  | cons l ls ih =>
    simp only [collectLines]
    cases runLine (String.mk l) with
    | error e => exact ih
    | ok d' =>
      by_cases hd : d'.amount.isSome = true
      · simp only [hd, if_true, List.mem_cons]
        rintro (rfl | h)
        · exact hd
        · exact ih h
      · simp only [hd, Bool.false_eq_true, if_false]
        exact ih

/-- C7: the multi-line splitter yields at most one transaction per non-blank
line, every kept transaction has a present amount (lines with a null amount
are excluded, and a raising line is skipped without aborting the batch —
`Except.error` lines contribute nothing), and the three-line example yields
exactly two transactions under the local-fallback extraction path. -/
theorem C7_multi_line :
    (∀ (text : String) (runLine : String → Except Unit TxData),
        (parse_multiple_transactions text runLine).length ≤ (nonBlankLines text).length) ∧
    (∀ (text : String) (runLine : String → Except Unit TxData) (d : TxData),
        d ∈ parse_multiple_transactions text runLine → d.amount.isSome = true) ∧
    (parse_multiple_transactions
        "Beli makan siang 50000\nkosong tanpa angka\nTerima gaji 5000000"
        (fun l => .ok (parse_financial_data l 0 0 (.error ()) (fun _ => none)))).length = 2 := by
  refine ⟨?_, ?_, ?_⟩
  · intro text runLine
    exact collectLines_length_le runLine (nonBlankLines text)
  · intro text runLine d
    exact collectLines_mem runLine (nonBlankLines text) d
  · decide

/-- C7 witness: the membership clause applied to the single record a
one-line batch keeps. -/
theorem C7_multi_line_witness :
    ((⟨some 0, none, none, none, none⟩ : TxData)).amount.isSome = true :=
  C7_multi_line.2.1 "x" (fun _ => .ok ⟨some 0, none, none, none, none⟩)
    ⟨some 0, none, none, none, none⟩ (List.Mem.head _)

/-- One grouping step adds the item's absolute amount to the sum of all
category totals. -/
theorem sum_upsertTx (acc : List CatAcc) (t : TxItem) :
    ((upsertTx acc t).map (fun c => c.total)).sum =
      ((acc.map (fun c => c.total)).sum + |t.amount|) := by
  induction acc with
  | nil => simp [upsertTx]
  | cons c rest ih =>
    by_cases h : c.name = t.category
    · simp [upsertTx, h]
      ring
    · simp [upsertTx, h, ih]
      ring

/-- The grouping fold preserves the total sum. -/
theorem sum_foldl_upsert (txs : List TxItem) :
    ∀ acc : List CatAcc,
      ((txs.foldl upsertTx acc).map (fun c => c.total)).sum =
        ((acc.map (fun c => c.total)).sum + (txs.map (fun t => |t.amount|)).sum) := by
  induction txs with
  | nil => intro acc; simp
  | cons t ts ih =>
    intro acc
    simp only [List.foldl_cons, ih, sum_upsertTx, List.map_cons, List.sum_cons]
    ring

/-- C8: for a non-empty batch the rendered grand total equals the sum of the
per-item absolute amounts, the category blocks are in non-increasing
subtotal order, each block displays at most ten items in non-increasing
amount order; on the three-item example the blocks are Belanja (30.000)
before Makanan (25.000) with grand total 55.000. -/
theorem C8_category_summary :
    (∀ txs : List TxItem, txs ≠ [] →
      (generate_category_summary txs).2 = (txs.map (fun t => |t.amount|)).sum ∧
      List.Pairwise (fun a b : CatBlock => b.subtotal ≤ a.subtotal)
        (generate_category_summary txs).1 ∧
      ∀ blk ∈ (generate_category_summary txs).1,
        blk.shown.length ≤ 10 ∧
        List.Pairwise (fun x y : String × ℚ => y.2 ≤ x.2) blk.shown) ∧
    ((generate_category_summary
        [⟨"Makanan", 20000, ""⟩, ⟨"Makanan", 5000, ""⟩, ⟨"Belanja", 30000, ""⟩]).1.map
      (fun b => (b.name, b.subtotal))) = [("Belanja", 30000), ("Makanan", 25000)] ∧
    (generate_category_summary
        [⟨"Makanan", 20000, ""⟩, ⟨"Makanan", 5000, ""⟩, ⟨"Belanja", 30000, ""⟩]).2 = 55000 := by
  refine ⟨?_, ?_, ?_⟩
  · intro txs htxs
    refine ⟨?_, ?_, ?_⟩
    · have hperm : List.Perm
          ((List.insertionSort catGE (groupCats txs)).map (fun c => c.total))
          ((groupCats txs).map (fun c => c.total)) :=
        (List.perm_insertionSort catGE (groupCats txs)).map (fun c => c.total)
      simp only [generate_category_summary, htxs, if_false]
      rw [hperm.sum_eq]
      simpa using sum_foldl_upsert txs []
    · have hs : List.Sorted catGE (List.insertionSort catGE (groupCats txs)) :=
        List.sorted_insertionSort catGE (groupCats txs)
      simp only [generate_category_summary, htxs, if_false]
      exact List.pairwise_map.mpr hs
    · intro blk hblk
      simp only [generate_category_summary, htxs, if_false, List.mem_map] at hblk
      obtain ⟨c, _, rfl⟩ := hblk
      constructor
      · simp [List.length_take]
      · have hs : List.Sorted itemGE (List.insertionSort itemGE c.items) :=
          List.sorted_insertionSort itemGE c.items
        have ht : List.Pairwise itemGE ((List.insertionSort itemGE c.items).take 10) :=
          hs.sublist (List.take_sublist 10 _)
        exact List.pairwise_map.mpr ht
  · have h20 : |(20000 : ℚ)| = 20000 := abs_of_nonneg (by norm_num)
    have h5 : |(5000 : ℚ)| = 5000 := abs_of_nonneg (by norm_num)
    have h30 : |(30000 : ℚ)| = 30000 := abs_of_nonneg (by norm_num)
    simp [generate_category_summary, groupCats, upsertTx, catGE, h20, h5, h30]
    norm_num
  · have h20 : |(20000 : ℚ)| = 20000 := abs_of_nonneg (by norm_num)
    have h5 : |(5000 : ℚ)| = 5000 := abs_of_nonneg (by norm_num)
    have h30 : |(30000 : ℚ)| = 30000 := abs_of_nonneg (by norm_num)
    simp [generate_category_summary, groupCats, upsertTx, catGE, h20, h5, h30]
    norm_num

/-- C8 witness: the general clause applied to a one-item batch. -/
theorem C8_category_summary_witness :
    (generate_category_summary [⟨"Lainnya", 5, "a"⟩]).2 =
        (([⟨"Lainnya", 5, "a"⟩] : List TxItem).map (fun t => |t.amount|)).sum ∧
      List.Pairwise (fun a b : CatBlock => b.subtotal ≤ a.subtotal)
        (generate_category_summary [⟨"Lainnya", 5, "a"⟩]).1 ∧
      ∀ blk ∈ (generate_category_summary [⟨"Lainnya", 5, "a"⟩]).1,
        blk.shown.length ≤ 10 ∧
        List.Pairwise (fun x y : String × ℚ => y.2 ≤ x.2) blk.shown :=
  C8_category_summary.1 [⟨"Lainnya", 5, "a"⟩] (by simp)

/-- Every collected row index is at least the scan's base index. -/
theorem matchIdx_lb (uid : String) :
    ∀ (body : List SheetRow) (b : Nat), ∀ i ∈ matchIdx uid body b, b ≤ i := by
  intro body
  induction body with
  | nil => intro b i hi; simp [matchIdx] at hi
  | cons r rest ih =>
    intro b i hi
    by_cases hr : r.userId = uid
    · simp only [matchIdx, hr, if_true, List.mem_cons] at hi
      rcases hi with rfl | hi
      · exact le_refl i
      · exact le_trans (Nat.le_succ b) (ih (b + 1) i hi)
    · simp only [matchIdx, hr, if_false] at hi
      exact le_trans (Nat.le_succ b) (ih (b + 1) i hi)

/-- The collected row indices are strictly increasing. -/
theorem matchIdx_sorted (uid : String) :
    ∀ (body : List SheetRow) (b : Nat), List.Pairwise (· < ·) (matchIdx uid body b) := by
  intro body
  induction body with
  | nil => intro b; simp [matchIdx]
  | cons r rest ih =>
    intro b
    by_cases hr : r.userId = uid
    · simp only [matchIdx, hr, if_true]
      exact List.Pairwise.cons
        (fun i hi => lt_of_lt_of_le (Nat.lt_succ_self b) (matchIdx_lb uid rest (b + 1) i hi))
        (ih (b + 1))
    · simp only [matchIdx, hr, if_false]
      exact ih (b + 1)

/-- Shifting the scan's base index shifts every collected index. -/
theorem matchIdx_shift (uid : String) :
    ∀ (body : List SheetRow) (b : Nat),
      matchIdx uid body (b + 1) = (matchIdx uid body b).map (· + 1) := by
  intro body
  induction body with
  | nil => intro b; simp [matchIdx]
  | cons r rest ih =>
    intro b
    by_cases hr : r.userId = uid <;> simp [matchIdx, hr, ih (b + 1)]

/-- Inserting below every element of a descending list appends it at the
end. -/
theorem orderedInsert_natGE_last (a : Nat) :
    ∀ l : List Nat, (∀ x ∈ l, a < x) → List.orderedInsert natGE a l = l ++ [a] := by
  intro l
  induction l with
  | nil => intro _; rfl
  | cons b bs ih =>
    intro h
    have hb : ¬ natGE a b := by
      have := h b (by simp)
      simp only [natGE]
      omega
    simp only [List.orderedInsert, hb, if_false, List.cons_append, List.cons.injEq, true_and]
    exact ih (fun x hx => h x (by simp [hx]))

/-- Descending insertion sort of a strictly increasing list is its
reverse. -/
theorem insertionSort_natGE_of_ascending :
    ∀ l : List Nat, List.Pairwise (· < ·) l → List.insertionSort natGE l = l.reverse := by
  intro l
  induction l with
  | nil => intro _; rfl
  | cons x xs ih =>
    intro h
    have hx : ∀ y ∈ xs.reverse, x < y := by
      intro y hy
      exact List.rel_of_pairwise_cons h (List.mem_reverse.mp hy)
    simp only [List.insertionSort, ih h.of_cons, List.reverse_cons]
    exact orderedInsert_natGE_last x xs.reverse hx

/-- Deleting at successors of a list of positions leaves the head in
place. -/
theorem foldE_shift (a : SheetRow) :
    ∀ (is : List Nat) (s : List SheetRow),
      List.foldl (fun s i => s.eraseIdx i) (a :: s) (is.map (· + 1)) =
        a :: List.foldl (fun s i => s.eraseIdx i) s is := by
  intro is
  induction is with
  | nil => intro s; rfl
  | cons i is ih =>
    intro s
    simp only [List.map_cons, List.foldl_cons, List.eraseIdx_cons_succ]
    exact ih (s.eraseIdx i)

/-- Deleting the user's 0-based match positions in descending order filters
out exactly the user's rows. -/
theorem foldE_matchIdx (uid : String) :
    ∀ body : List SheetRow,
      List.foldl (fun s i => s.eraseIdx i) body (matchIdx uid body 0).reverse =
        body.filter (fun r => !(r.userId == uid)) := by
  intro body
  induction body with
  | nil => rfl
  | cons r rest ih =>
    have hshift : matchIdx uid rest 1 = (matchIdx uid rest 0).map (· + 1) :=
      matchIdx_shift uid rest 0
    by_cases hr : r.userId = uid
    · simp only [matchIdx, hr, if_true, List.reverse_cons, hshift]
      rw [← List.map_reverse, List.foldl_append, foldE_shift]
      simp only [List.foldl_cons, List.foldl_nil, List.eraseIdx_cons_zero]
      rw [ih]
      simp [List.filter_cons, hr]
    · simp only [matchIdx, hr, if_false, hshift]
      rw [← List.map_reverse, foldE_shift, ih]
      simp [List.filter_cons, hr]

/-- C10: the delete-all operation removes exactly the requesting user's rows
(every other user's row survives, in order, and the header row survives);
the deletion fold runs over the matching sheet indices in descending order,
which is why earlier deletions never shift a row still to be deleted. -/
theorem C10_delete_all :
    ∀ (header : SheetRow) (body : List SheetRow) (uid : String),
      confirm_delete_all header body uid =
        header :: body.filter (fun r => !(r.userId == uid)) := by
  intro header body uid
  have hsorted : List.insertionSort natGE (matchIdx uid body 2) =
      (matchIdx uid body 2).reverse :=
    insertionSort_natGE_of_ascending (matchIdx uid body 2) (matchIdx_sorted uid body 2)
  have h2 : matchIdx uid body 2 = ((matchIdx uid body 0).map (· + 1)).map (· + 1) := by
    have h1 := matchIdx_shift uid body 1
    have h0 := matchIdx_shift uid body 0
    rw [show (2 : Nat) = 1 + 1 from rfl, h1, h0]
  have hfold : ∀ (s : List SheetRow) (js : List Nat),
      List.foldl delete_rows s js = List.foldl (fun s i => s.eraseIdx i) s (js.map (· - 1)) := by
    intro s js
    rw [List.foldl_map]
    rfl
  have hmaps : ((((matchIdx uid body 0).map (· + 1)).map (· + 1)).reverse.map (· - 1)) =
      ((matchIdx uid body 0).reverse).map (· + 1) := by
    simp only [← List.map_reverse, List.map_map]
    simp [Function.comp, Nat.add_sub_cancel]
  simp only [confirm_delete_all]
  rw [hsorted, hfold, h2, hmaps, foldE_shift, foldE_matchIdx]

/-- C5 counterexample: a command sent while the waiting-for-amount context is
active reaches its command handler with the conversation context intact —
`conversation_state` (and every other context key) survives, contradicting
the claimed unconditional abort. -/
theorem C5_counterexample :
    dispatchText "/help" waiting_amount_keys (fun _ ud => ud) (fun _ ud => ud) =
        waiting_amount_keys ∧
    "conversation_state" ∈
      dispatchText "/help" waiting_amount_keys (fun _ ud => ud) (fun _ ud => ud) := by
  decide

/-- C5 (amended): a command message never clears conversation context.
Commands are dispatched to command handlers, none of which pops a key, and
they never reach `message_handler` (whose own command branch would clear
only the three delete-flow keys) because the message handlers exclude
commands; so every key present before the command survives it. -/
theorem C5_command_preserves_context :
    ∀ (text : String) (ud : UserData)
      (onDateInput onFinancial : String → UserData → UserData),
      isCommandText text = true →
      ∀ k ∈ ud, k ∈ dispatchText text ud onDateInput onFinancial := by
  intro text ud onDateInput onFinancial hc k hk
  unfold dispatchText
  cases hco : commandOf text with
  | none => simp [hc, hk]
  | some c =>
    cases c <;> simp only [applyCommand, addKey] <;> try exact hk
    by_cases hm : "delete_messages" ∈ ud <;> simp [hm, hk]

/-- C5 witness: the waiting-amount context survives a concrete `/help`
command. -/
theorem C5_command_preserves_context_witness :
    "conversation_state" ∈
      dispatchText "/help" waiting_amount_keys (fun _ ud => ud) (fun _ ud => ud) :=
  C5_command_preserves_context "/help" waiting_amount_keys (fun _ ud => ud) (fun _ ud => ud)
    (by decide) "conversation_state" (by decide)

/-- Key membership after popping a list of keys. -/
theorem mem_popKeys :
    ∀ (ks : List String) (ud : UserData) (k : String),
      k ∈ popKeys ud ks ↔ (k ∈ ud ∧ k ∉ ks) := by
  intro ks
  induction ks with
  | nil => intro ud k; simp [popKeys]
  | cons a ks ih =>
    intro ud k
    have : popKeys ud (a :: ks) = popKeys (removeKey ud a) ks := rfl
    rw [this, ih]
    simp only [removeKey, List.mem_filter, List.mem_cons]
    constructor
    · rintro ⟨⟨h1, h2⟩, h3⟩
      refine ⟨h1, ?_⟩
      simp only [decide_eq_true_eq] at h2
      tauto
    · rintro ⟨h1, h2⟩
      push_neg at h2
      exact ⟨⟨h1, by simp [h2.1]⟩, h2.2⟩

/-- C6 counterexample: confirming from the pending-confirmation state with a
`messages_to_delete` key present (as the normal flow always leaves one)
keeps that key — the context is not left empty, contradicting the claimed
clearing of every per-user key. -/
theorem C6_counterexample :
    button_callback_confirm .yes true ("messages_to_delete" :: context_bundle_keys) =
        ["messages_to_delete"] ∧
    "messages_to_delete" ∈
      button_callback_confirm .yes true ("messages_to_delete" :: context_bundle_keys) := by
  decide

/-- C6 (amended): a confirm (with the record store available) or cancel
transition clears exactly the ten-key context bundle (raw text, transaction
type, date, category, pending candidate, amount, description, detected date,
pending receipt, conversation state) in one step: a key survives the
transition exactly when it was present and lies outside the bundle. -/
theorem C6_confirm_clears_bundle :
    ∀ (ud : UserData) (k : String),
      (k ∈ button_callback_confirm .yes true ud ↔ (k ∈ ud ∧ k ∉ context_bundle_keys)) ∧
      (∀ sheetAvailable : Bool,
        k ∈ button_callback_confirm .cancel sheetAvailable ud ↔
          (k ∈ ud ∧ k ∉ context_bundle_keys)) := by
  intro ud k
  exact ⟨mem_popKeys context_bundle_keys ud k,
    fun _ => mem_popKeys context_bundle_keys ud k⟩

/-- C6 witness: a key outside the bundle survives a concrete confirm. -/
theorem C6_confirm_clears_bundle_witness :
    "messages_to_delete" ∈
      button_callback_confirm .yes true ("messages_to_delete" :: context_bundle_keys) :=
  (C6_confirm_clears_bundle ("messages_to_delete" :: context_bundle_keys)
    "messages_to_delete").1.mpr ⟨by decide, by decide⟩

end FinanceBot
